import Mathlib

/-!
Verification of the ChatGPTx PopClip extension (`main.ts`) against its
natural-language specification.  The repository snapshot contains two
revisions of `main.ts`; definitions below embed the latest revision
(per-language one-shot prompts, WHATWG-URL-based client options, 20-minute
history expiry) except where a claim explicitly targets the earlier
revision (the custom-prompt override table of `OneTimeAction.getPrompt`).

Strings are processed through small character-list helpers that mirror the
JavaScript string primitives used by the source (`split`, `trim`,
`substring(1)`, `join`); they are written with structural recursion so that
every concrete instance reduces inside the kernel.
-/

deriving instance DecidableEq for Except

namespace ChatGPTx

/-- Role tag of a chat message, from the `Message` interface of `main.ts`. -/
inductive Role where
  | user
  | system
  | assistant
deriving DecidableEq, Repr

/-- A chat message: `{role, content}` as in the `Message` interface. -/
structure Message where
  role : Role
  content : String
deriving DecidableEq, Repr

/-! ## JavaScript string primitives, modelled on character lists -/

/-- JavaScript `s.split(sep)` for a one-character separator, on char lists:
`split` of the empty string is `[[]]`, and separators at the ends produce
empty fragments, exactly as in JavaScript. -/
def splitChar (sep : Char) : List Char → List (List Char)
  | [] => [[]]
  | c :: cs =>
    match splitChar sep cs with
    | [] => [[]]
    | g :: gs => if c = sep then [] :: g :: gs else (c :: g) :: gs

/-- JavaScript `parts.join(sep)` for a one-character separator. -/
def joinChar (sep : Char) : List (List Char) → List Char
  | [] => []
  | [g] => g
  | g :: gs => g ++ sep :: joinChar sep gs

/-- JavaScript `s.trim()`: strip whitespace from both ends.  (JavaScript
trims all Unicode whitespace; the inputs exercised here only use ASCII
whitespace, covered by `Char.isWhitespace`.) -/
def trimChars (l : List Char) : List Char :=
  ((l.dropWhile Char.isWhitespace).reverse.dropWhile Char.isWhitespace).reverse

/-- String-level `split` on a one-character separator. -/
def jsSplit (sep : Char) (s : String) : List String :=
  (splitChar sep s.toList).map String.mk

/-- String-level `join` with a one-character separator. -/
def jsJoin (sep : Char) (ls : List String) : String :=
  String.mk (joinChar sep (ls.map String.toList))

/-- String-level `trim`. -/
def jsTrim (s : String) : String :=
  String.mk (trimChars s.toList)

/-- JavaScript `s.substring(1)`: drop the first character (the inputs here
are ASCII, so UTF-16 units coincide with characters). -/
def jsDrop1 (s : String) : String :=
  String.mk (s.toList.drop 1)

/-! ## WHATWG URL model

The latest `makeClientOptions` calls `new URL(options.apiBase)` and reads
`origin`, `pathname` and `searchParams.get("api-version")`.  `URL` is a
platform builtin, so the three fields are modelled here for absolute
`scheme://host[/path][?query][#fragment]` URLs: the host is kept verbatim
(no case normalisation, ports or percent-encoding, which the configured
base URLs of this extension do not use), and an empty path reads as `"/"`
as WHATWG prescribes for special schemes. -/

structure ParsedURL where
  origin : String
  pathname : String
  query : String
deriving DecidableEq, Repr

/-- Split `scheme://rest` at the first `"://"`; `none` when the marker is
absent (real `new URL` would throw there; no claim exercises that path). -/
def splitScheme : List Char → Option (List Char × List Char)
  | [] => none
  | ':' :: '/' :: '/' :: rest => some ([], rest)
  | c :: cs => (splitScheme cs).map (fun p => (c :: p.1, p.2))

/-- True for characters that end the host portion of a URL. -/
def isHostEnd (c : Char) : Bool := c = '/' || c = '?' || c = '#'

/-- True for characters that end the path portion of a URL. -/
def isPathEnd (c : Char) : Bool := c = '?' || c = '#'

def parseURL (s : String) : ParsedURL :=
  match splitScheme s.toList with
  | none => ⟨"", s, ""⟩
  | some (scheme, rest) =>
    let host := rest.takeWhile (fun c => !isHostEnd c)
    let afterHost := rest.dropWhile (fun c => !isHostEnd c)
    let path := afterHost.takeWhile (fun c => !isPathEnd c)
    let afterPath := afterHost.dropWhile (fun c => !isPathEnd c)
    let query : List Char :=
      match afterPath with
      | '?' :: qs => qs.takeWhile (fun c => !(c = '#'))
      | _ => []
    ⟨String.mk scheme ++ "://" ++ String.mk host,
     if path.isEmpty then "/" else String.mk path,
     String.mk query⟩

/-- Name part of one `name=value` query pair. -/
def paramName (p : List Char) : List Char := p.takeWhile (fun c => !(c = '='))

/-- Value part of one `name=value` query pair (empty when no `=`). -/
def paramValue (p : List Char) : List Char :=
  (p.dropWhile (fun c => !(c = '='))).drop 1

def searchParamsGetAux (name : List Char) : List (List Char) → Option String
  | [] => none
  | p :: rest =>
    if p.isEmpty then searchParamsGetAux name rest
    else if paramName p = name then some (String.mk (paramValue p))
    else searchParamsGetAux name rest

/-- `url.searchParams.get(name)`: first matching pair wins, empty segments
are skipped, a pair without `=` has the empty value, `none` when absent
(JavaScript `null`). -/
def searchParamsGet (query : String) (name : String) : Option String :=
  searchParamsGetAux name.toList (splitChar '&' query.toList)

/-! ## Options and client configuration (latest revision) -/

/-- User settings, from the `Options` interface of the latest revision.
`apiType` is typed as a union of two tags in TypeScript, but the runtime
value comes unchecked from the settings UI, which is why the source keeps
an `unsupported api type` throw; it is therefore modelled as a string. -/
structure Options where
  apiType : String
  apiBase : String
  apiKey : String
  apiVersion : String
  model : String
  temperature : String
  reviseEnabled : Bool
  revisePrimaryLanguage : String
  reviseSecondaryLanguage : String
  polishEnabled : Bool
  polishPrimaryLanguage : String
  polishSecondaryLanguage : String
  translateEnabled : Bool
  translatePrimaryLanguage : String
  translateSecondaryLanguage : String
  summarizeEnabled : Bool
  summarizePrimaryLanguage : String
  summarizeSecondaryLanguage : String
deriving DecidableEq, Repr

/-- Axios client configuration as built by `makeClientOptions`: base URL,
header list, query-parameter list (a parameter value is `none` when the
source would set JavaScript `null`), and timeout in milliseconds. -/
structure ClientOptions where
  baseURL : String
  headers : List (String × String)
  params : List (String × Option String)
  timeout : Nat
deriving DecidableEq, Repr

/-- The trailing path suffix trimmed by `pathname.replace(/\/chat\/completions$/, "")`. -/
def chatCompletionsSuffix : List Char := "/chat/completions".toList

/-- `url.pathname.replace(/\/chat\/completions$/, "")`: remove one trailing
`/chat/completions` suffix if present. -/
def trimChatCompletions (p : String) : String :=
  let l := p.toList
  if chatCompletionsSuffix.isSuffixOf l then
    String.mk (l.take (l.length - chatCompletionsSuffix.length))
  else p

/-- `makeClientOptions` of the latest revision: parse the configured base
URL, read `api-version` out of its query string, trim a trailing
`/chat/completions` from its path, then branch on the dialect tag; an
unknown tag throws (modelled as `Except.error`). -/
def makeClientOptions (o : Options) : Except String ClientOptions :=
  let timeoutMs : Nat := 35000
  let url := parseURL o.apiBase
  let apiVersion := searchParamsGet url.query "api-version"
  let baseURL := url.origin ++ trimChatCompletions url.pathname
  if o.apiType = "openai" then
    Except.ok ⟨baseURL, [("Authorization", "Bearer " ++ o.apiKey)], [], timeoutMs⟩
  else if o.apiType = "azure" then
    Except.ok ⟨baseURL, [("api-key", o.apiKey)], [("api-version", apiVersion)], timeoutMs⟩
  else
    Except.error ("unsupported api type: " ++ o.apiType)

/-- Options record with the fields the claims leave free defaulted; the
one-shot enable flags and languages are never read by the modelled paths. -/
def sampleOptions (apiType apiBase apiKey apiVersion : String) : Options :=
  ⟨apiType, apiBase, apiKey, apiVersion, "gpt-3.5-turbo", "1",
   false, "English", "Chinese Simplified",
   false, "English", "Chinese Simplified",
   false, "Chinese Simplified", "English",
   false, "Chinese Simplified", "English"⟩

/-! ## Prompt resolver (earlier revision)

The earlier revision resolves one-shot prompts through a user-override
blob: `OneTimeAction.getPrompt` splits the blob into lines, and for each
line splits on `"]"`; if the first fragment minus its first character
equals the action identity, the remaining fragments rejoined with `"]"`
are the prompt; otherwise the built-in default for the action is used. -/

/-- Built-in default prompts (`OneTimeAction.defaultPrompts`). -/
def OneTimeAction.defaultPrompts : List (String × String) :=
  [("revise", "Please revise the text to make it clearer, more concise, and more coherent, and please list the changes and briefly explain why (NOTE: do not translate the content)."),
   ("polish", "Please correct the grammar and polish the text while adhering as closely as possible to the original intent (NOTE: do not translate the content)."),
   ("translate", "Please translate the text into Chinese and only provide me with the translated content without formating.")]

/-- Match test for one override line: `parts[0].substring(1) == action`
where `parts = line.trim().split("]")`. -/
def lineMatches (action line : String) : Bool :=
  jsDrop1 ((jsSplit ']' (jsTrim line)).headD "") = action

/-- The `for` loop of `getPrompt`: first matching line wins and yields
`parts.slice(1).join("]")`; `none` when no line matches. -/
def promptLoop (action : String) : List String → Option String
  | [] => none
  | line :: rest =>
    if lineMatches action line then
      some (jsJoin ']' ((jsSplit ']' (jsTrim line)).drop 1))
    else promptLoop action rest

/-- `OneTimeAction.getPrompt` of the earlier revision.  The TypeScript
`defaultPrompts.get(action)!` non-null assertion is modelled with a `""`
default (all call sites pass one of the three mapped actions). -/
def OneTimeAction.getPrompt (action customPrompts : String) : String :=
  if customPrompts = "" then (OneTimeAction.defaultPrompts.lookup action).getD ""
  else
    match promptLoop action (jsSplit '\n' customPrompts) with
    | some p => p
    | none => (OneTimeAction.defaultPrompts.lookup action).getD ""

/-! ## Chat history store (latest revision)

Time is modelled as milliseconds since the epoch (`Date.getTime()`), a
`Nat` passed explicitly where the source calls `new Date()`.  The
`Map<string, ChatHistory>` is an association list in insertion order,
which matches JavaScript `Map` semantics: `set` on a present key keeps its
position, `set` on an absent key appends, iteration follows insertion
order. -/

/-- Idle expiry window, 20 minutes in the latest revision. -/
def InactiveChatHistoryResetIntervalMs : Nat := 20 * 1000 * 60

/-- Per-application chat history: message buffer plus last-activity time. -/
structure ChatHistory where
  appIdentifier : String
  lastActiveAt : Nat
  messages : List Message
deriving DecidableEq, Repr

/-- `ChatHistory.isActive`: the idle duration is within the expiry window.
With truncated `Nat` subtraction a timestamp in the future reads as idle
duration `0`, which compares the same way as the negative JavaScript
difference. -/
def ChatHistory.isActive (now : Nat) (h : ChatHistory) : Bool :=
  now - h.lastActiveAt < InactiveChatHistoryResetIntervalMs

/-- `ChatHistory.push`: append a message and refresh the last-activity
timestamp. -/
def ChatHistory.push (now : Nat) (h : ChatHistory) (m : Message) : ChatHistory :=
  { h with messages := h.messages ++ [m], lastActiveAt := now }

/-- State effect of `ChatHistory.pop`: drop the most recent message.  The
returned message is discarded by the only caller (`onRequestError`), and
the timestamp is left untouched. -/
def ChatHistory.popped (h : ChatHistory) : ChatHistory :=
  { h with messages := h.messages.dropLast }

/-- The `chatHistories` map of `ChatAction`, keyed by application
identifier. -/
abbrev ChatHistories := List (String × ChatHistory)

/-- `Map.get`: first binding for the key (keys are unique in reachable
states). -/
def lookupHistory : ChatHistories → String → Option ChatHistory
  | [], _ => none
  | (k, c) :: rest, appId => if k = appId then some c else lookupHistory rest appId

/-- `Map.set`: replace the first binding in place, or append a new one. -/
def setHistory : ChatHistories → String → ChatHistory → ChatHistories
  | [], k, c => [(k, c)]
  | (k0, c0) :: rest, k, c =>
    if k0 = k then (k0, c) :: rest else (k0, c0) :: setHistory rest k c

/-- `Map.delete`: remove the bindings for the key. -/
def deleteHistory (hs : ChatHistories) (appId : String) : ChatHistories :=
  hs.filter (fun p => !(p.1 = appId : Bool))

/-- `ChatAction.getChatHistory`: get the existing history or create an
empty one with a fresh timestamp and insert it. -/
def getChatHistory (now : Nat) (hs : ChatHistories) (appId : String) :
    ChatHistory × ChatHistories :=
  match lookupHistory hs appId with
  | some c => (c, hs)
  | none => (⟨appId, now, []⟩, hs ++ [(appId, ⟨appId, now, []⟩)])

/-- Message sequence stored for an application identifier (empty when no
history exists). -/
def messagesOf (hs : ChatHistories) (appId : String) : List Message :=
  match lookupHistory hs appId with
  | some c => c.messages
  | none => []

/-- `ChatAction.doCleanup`: delete every history that is no longer active. -/
def ChatAction.doCleanup (now : Nat) (hs : ChatHistories) : ChatHistories :=
  hs.filter (fun p => ChatHistory.isActive now p.2)

/-- Request payload produced by `makeRequestData`: `{model, messages,
temperature}`.  The JavaScript `Number(options.temperature)` conversion is
a floating-point boundary concern and the field carries the configured
string. -/
structure RequestData where
  model : String
  messages : List Message
  temperature : String
deriving DecidableEq, Repr

/-- `ChatAction.makeRequestData` for the `chat` action: push the new user
message onto this application's history, then submit the entire
accumulated history as the message sequence. -/
def ChatAction.makeRequestData (now : Nat) (hs : ChatHistories)
    (appId inputText : String) (opts : Options) : RequestData × ChatHistories :=
  let gc := getChatHistory now hs appId
  let chat2 := ChatHistory.push now gc.1 ⟨Role.user, inputText⟩
  (⟨opts.model, chat2.messages, opts.temperature⟩, setHistory gc.2 appId chat2)

/-- `ChatAction.onRequestError`: pop the just-pushed user message. -/
def ChatAction.onRequestError (now : Nat) (hs : ChatHistories) (appId : String) :
    ChatHistories :=
  let gc := getChatHistory now hs appId
  setHistory gc.2 appId (ChatHistory.popped gc.1)

/-- `ChatAction.processResponse`: push the returned assistant message onto
the history and return its trimmed content. -/
def ChatAction.processResponse (now : Nat) (hs : ChatHistories) (appId : String)
    (m : Message) : String × ChatHistories :=
  let gc := getChatHistory now hs appId
  (jsTrim m.content, setHistory gc.2 appId (ChatHistory.push now gc.1 m))

/-! ## Dispatcher (`doAction`, latest revision), specialised to `chat`

The host-visible side effects of one invocation are recorded as a list of
`Effect`s in emission order.  The single `axios.post` suspension point is
abstracted by a `NetResult` argument: what the one network call of the
invocation produced (success with the first choice's message, or a thrown
error rendered by `String(e)`). -/

/-- Host side effects requested through the `popclip` object.  `showText`
carries the `preview` flag; the `notify`/`style` hints of the latest
revision carry no routing information and are elided. -/
inductive Effect where
  | pasteText : String → Bool → Effect
  | copyText : String → Effect
  | showText : String → Bool → Effect
  | showSuccess : Effect
  | showFailure : Effect
deriving DecidableEq, Repr

/-- The parts of `popclip.context` and `popclip.modifiers` read by
`doAction`. -/
structure Ctx where
  appIdentifier : String
  appName : String
  canPaste : Bool
  canCopy : Bool
  shift : Bool
  option : Bool
deriving DecidableEq, Repr

/-- Outcome of the one `openai.post("chat/completions", ...)` call. -/
inductive NetResult where
  | success : Message → NetResult
  | failure : String → NetResult
deriving DecidableEq, Repr

/-- `isTerminalApplication`. -/
def isTerminalApplication (appName : String) : Bool :=
  appName = "iTerm2" || appName = "Terminal"

/-- Success branch of `doAction`: paste when no "force preview" modifier is
held and the host can paste (prepending the original text outside
terminal-class applications that can copy), otherwise copy the result and
show it as a preview. -/
def routeOutput (ctx : Ctx) (inputText result : String) : List Effect :=
  if !ctx.option && ctx.canPaste then
    let toBePasted :=
      if !isTerminalApplication ctx.appName && ctx.canCopy then
        inputText ++ "\n\n" ++ result ++ "\n"
      else "\n\n" ++ result ++ "\n"
    [Effect.pasteText toBePasted true, Effect.showSuccess]
  else
    [Effect.copyText result, Effect.showText result true]

/-- `doAction` for the `chat` action, after the initial cleanup sweep:
gate (`ChatAction.beforeRequest`: shift clears this application's history
and refuses), then `makeRequestData`, then `makeClientOptions` (whose
throw propagates out of `doAction` before the `try` block, leaving the
just-pushed user message in place), then the network call: on success
`processResponse` and output routing, on failure `onRequestError` and the
error text. -/
def doActionChatSwept (now : Nat) (hs : ChatHistories) (ctx : Ctx)
    (inputText : String) (opts : Options) (net : NetResult) :
    ChatHistories × List Effect :=
  if ctx.shift then
    (deleteHistory hs ctx.appIdentifier,
     [Effect.showText (ctx.appName ++ "(" ++ ctx.appIdentifier ++ ")" ++
        "\x27s chat history has been cleared") false,
      Effect.showSuccess])
  else
    let br := ChatAction.makeRequestData now hs ctx.appIdentifier inputText opts
    match makeClientOptions opts with
    | Except.error _ => (br.2, [])
    | Except.ok _ =>
      match net with
      | NetResult.success m =>
        let pr := ChatAction.processResponse now br.2 ctx.appIdentifier m
        (pr.2, routeOutput ctx inputText pr.1)
      | NetResult.failure e =>
        (ChatAction.onRequestError now br.2 ctx.appIdentifier,
         [Effect.showText e false])

/-- Full `doAction` for the `chat` action: the lazy expiry sweep runs
first, on every dispatch, then the rest of the invocation proceeds on the
swept store. -/
def doActionChat (now : Nat) (hs : ChatHistories) (ctx : Ctx)
    (inputText : String) (opts : Options) (net : NetResult) :
    ChatHistories × List Effect :=
  doActionChatSwept now (ChatAction.doCleanup now hs) ctx inputText opts net

/-! ## Multi-turn runs of the chat action

`chatSuccessTurn` is one successful dispatch of the `chat` action with the
shift modifier up: sweep, build (push of the user message), network
success, post-process (push of the assistant message).  `builtRequest` is
the request constructed by a dispatch on a given store state. -/

/-- One successful chat turn at time `now`: the request it submitted and
the store it left behind. -/
def chatSuccessTurn (now : Nat) (hs : ChatHistories) (appId u : String)
    (opts : Options) (a : Message) : RequestData × ChatHistories :=
  let hs0 := ChatAction.doCleanup now hs
  let br := ChatAction.makeRequestData now hs0 appId u opts
  let pr := ChatAction.processResponse now br.2 appId a
  (br.1, pr.2)

/-- Run a sequence of successful chat turns `(time, user text, assistant
reply)` for one application identifier. -/
def runChat (appId : String) (opts : Options) :
    List (Nat × String × Message) → ChatHistories → ChatHistories
  | [], hs => hs
  | (t, u, a) :: rest, hs =>
    runChat appId opts rest (chatSuccessTurn t hs appId u opts a).2

/-- The request constructed by a dispatch at time `now` on store `hs`
(sweep, then `makeRequestData`). -/
def builtRequest (now : Nat) (hs : ChatHistories) (appId u : String)
    (opts : Options) : RequestData :=
  (ChatAction.makeRequestData now (ChatAction.doCleanup now hs) appId u opts).1

/-- In-order concatenation of the (user, assistant) message pairs of a
turn sequence. -/
def pairsFlat : List (Nat × String × Message) → List Message
  | [] => []
  | (_, u, a) :: rest => ⟨Role.user, u⟩ :: a :: pairsFlat rest

/-- Timestamp of the last turn (`t0` when there is none). -/
def lastT (t0 : Nat) : List (Nat × String × Message) → Nat
  | [] => t0
  | (t, _, _) :: rest => lastT t rest

/-- No expiry from a turn at `prev` through the listed turns up to a final
dispatch at `tN`: every consecutive idle gap stays inside the window. -/
def chainFrom (prev : Nat) : List (Nat × String × Message) → Nat → Bool
  | [], tN => tN - prev < InactiveChatHistoryResetIntervalMs
  | (t, _, _) :: rest, tN =>
    (t - prev < InactiveChatHistoryResetIntervalMs : Bool) && chainFrom t rest tN

/-- No expiry across a turn sequence followed by a dispatch at `tN` (the
first turn creates the history, so it needs no bound). -/
def chainOk : List (Nat × String × Message) → Nat → Bool
  | [], _ => true
  | (t, _, _) :: rest, tN => chainFrom t rest tN

/-! ## Store lemmas -/

theorem lookupHistory_setHistory_self (hs : ChatHistories) (k : String)
    (c : ChatHistory) : lookupHistory (setHistory hs k c) k = some c := by
  induction hs with
  | nil => simp [setHistory, lookupHistory]
  | cons p rest ih =>
    by_cases h : p.1 = k
    · simp [setHistory, h, lookupHistory]
    · simp [setHistory, h, lookupHistory, ih]

theorem lookupHistory_append_self (hs : ChatHistories) (k : String)
    (c : ChatHistory) (h : lookupHistory hs k = none) :
    lookupHistory (hs ++ [(k, c)]) k = some c := by
  induction hs with
  | nil => simp [lookupHistory]
  | cons p rest ih =>
    by_cases hp : p.1 = k
    · simp [lookupHistory, hp] at h
    · simp [lookupHistory, hp] at h ⊢
      exact ih h

/-- Request construction appends the new user message to the stored
sequence. -/
theorem messagesOf_makeRequestData (now : Nat) (hs : ChatHistories)
    (appId u : String) (opts : Options) :
    messagesOf (ChatAction.makeRequestData now hs appId u opts).2 appId
      = messagesOf hs appId ++ [⟨Role.user, u⟩] := by
  cases h : lookupHistory hs appId with
  | some c =>
    simp [ChatAction.makeRequestData, getChatHistory, h, ChatHistory.push,
      messagesOf, lookupHistory_setHistory_self]
  | none =>
    simp [ChatAction.makeRequestData, getChatHistory, h, ChatHistory.push,
      messagesOf, lookupHistory_setHistory_self]

/-- The submitted request carries the stored sequence plus the new user
message. -/
theorem requestMessages_makeRequestData (now : Nat) (hs : ChatHistories)
    (appId u : String) (opts : Options) :
    (ChatAction.makeRequestData now hs appId u opts).1.messages
      = messagesOf hs appId ++ [⟨Role.user, u⟩] := by
  cases h : lookupHistory hs appId with
  | some c =>
    simp [ChatAction.makeRequestData, getChatHistory, h, ChatHistory.push,
      messagesOf]
  | none =>
    simp [ChatAction.makeRequestData, getChatHistory, h, ChatHistory.push,
      messagesOf]

/-- The failure-compensation hook drops the most recent stored message. -/
theorem messagesOf_onRequestError (now : Nat) (hs : ChatHistories)
    (appId : String) :
    messagesOf (ChatAction.onRequestError now hs appId) appId
      = (messagesOf hs appId).dropLast := by
  cases h : lookupHistory hs appId with
  | some c =>
    simp [ChatAction.onRequestError, getChatHistory, h, ChatHistory.popped,
      messagesOf, lookupHistory_setHistory_self]
  | none =>
    simp [ChatAction.onRequestError, getChatHistory, h, ChatHistory.popped,
      messagesOf, lookupHistory_setHistory_self]

/-- Push-then-pop of one failed turn leaves the stored sequence as it was
before the request was constructed. -/
theorem failedTurn_messagesOf (now : Nat) (hs : ChatHistories)
    (appId u : String) (opts : Options) :
    messagesOf (ChatAction.onRequestError now
        (ChatAction.makeRequestData now hs appId u opts).2 appId) appId
      = messagesOf hs appId := by
  rw [messagesOf_onRequestError, messagesOf_makeRequestData]
  simp

/-- One successful turn on a single-history store: the sweep keeps the
history (the idle gap is inside the window), the user and assistant
messages are appended, and the timestamp becomes the turn's time. -/
theorem chatSuccessTurn_singleton (t t0 : Nat) (appId u : String)
    (opts : Options) (a : Message) (ms : List Message)
    (hgap : t - t0 < InactiveChatHistoryResetIntervalMs) :
    (chatSuccessTurn t [(appId, ⟨appId, t0, ms⟩)] appId u opts a).2
      = [(appId, ⟨appId, t, ms ++ [⟨Role.user, u⟩, a]⟩)] := by
  simp [chatSuccessTurn, ChatAction.doCleanup, ChatHistory.isActive, hgap,
    ChatAction.makeRequestData, ChatAction.processResponse, getChatHistory,
    lookupHistory, setHistory, ChatHistory.push]

/-- Evolution of a run of successful turns on a single-history store, with
the final dispatch bound carried along. -/
theorem runChat_singleton (appId : String) (opts : Options) :
    ∀ (turns : List (Nat × String × Message)) (t0 tN : Nat) (ms : List Message),
    chainFrom t0 turns tN = true →
    runChat appId opts turns [(appId, ⟨appId, t0, ms⟩)]
        = [(appId, ⟨appId, lastT t0 turns, ms ++ pairsFlat turns⟩)]
      ∧ tN - lastT t0 turns < InactiveChatHistoryResetIntervalMs := by
  intro turns
  induction turns with
  | nil =>
    intro t0 tN ms h
    simp only [chainFrom] at h
    simp [runChat, lastT, pairsFlat, of_decide_eq_true h]
  | cons hd rest ih =>
    obtain ⟨t, u, a⟩ := hd
    intro t0 tN ms h
    simp only [chainFrom, Bool.and_eq_true, decide_eq_true_eq] at h
    obtain ⟨h1, h2⟩ := h
    have step := chatSuccessTurn_singleton t t0 appId u opts a ms h1
    rw [runChat, step]
    have := ih t tN (ms ++ [⟨Role.user, u⟩, a]) h2
    simpa [lastT, pairsFlat] using this

/-! ## Claim theorems -/

/-- Claim C1: for every sequence of successful chat invocations for one
application identifier (no failures, no clear-history modifier, no expiry
in between), the `messages` field of the request built on turn N equals
the in-order concatenation of the (user, assistant) message pairs of all
prior successful turns followed by the new user message. -/
theorem chat_request_accumulates_history
    (turns : List (Nat × String × Message)) (tN : Nat) (appId u : String)
    (opts : Options) (h : chainOk turns tN = true) :
    (builtRequest tN (runChat appId opts turns []) appId u opts).messages
      = pairsFlat turns ++ [⟨Role.user, u⟩] := by
  cases turns with
  | nil =>
    simp [runChat, builtRequest, ChatAction.doCleanup, ChatAction.makeRequestData,
      getChatHistory, lookupHistory, ChatHistory.push, pairsFlat]
  | cons hd rest =>
    obtain ⟨t1, u1, a1⟩ := hd
    simp only [chainOk] at h
    have step0 : (chatSuccessTurn t1 [] appId u1 opts a1).2
        = [(appId, ⟨appId, t1, [⟨Role.user, u1⟩, a1]⟩)] := by
      simp [chatSuccessTurn, ChatAction.doCleanup, ChatAction.makeRequestData,
        ChatAction.processResponse, getChatHistory, lookupHistory, setHistory,
        ChatHistory.push]
    rw [runChat, step0]
    obtain ⟨hrun, hlt⟩ :=
      runChat_singleton appId opts rest t1 tN [⟨Role.user, u1⟩, a1] h
    rw [hrun]
    have hkeep : ChatAction.doCleanup tN
        [(appId, ⟨appId, lastT t1 rest, [⟨Role.user, u1⟩, a1] ++ pairsFlat rest⟩)]
        = [(appId, ⟨appId, lastT t1 rest, [⟨Role.user, u1⟩, a1] ++ pairsFlat rest⟩)] := by
      simp [ChatAction.doCleanup, ChatHistory.isActive, hlt]
    rw [builtRequest, hkeep, requestMessages_makeRequestData]
    simp [messagesOf, lookupHistory, pairsFlat]

/-- Concrete two-turn run witnessing `chat_request_accumulates_history`. -/
theorem chat_request_accumulates_history_witness :
    chainOk [(5, "q1", ⟨Role.assistant, "r1"⟩)] 10 = true
    ∧ (builtRequest 10
        (runChat "com.example.app" (sampleOptions "openai" "https://api.openai.com/v1" "K" "")
          [(5, "q1", ⟨Role.assistant, "r1"⟩)] [])
        "com.example.app" "q2"
        (sampleOptions "openai" "https://api.openai.com/v1" "K" "")).messages
      = [⟨Role.user, "q1"⟩, ⟨Role.assistant, "r1"⟩, ⟨Role.user, "q2"⟩] :=
  ⟨by decide,
   chat_request_accumulates_history [(5, "q1", ⟨Role.assistant, "r1"⟩)] 10
     "com.example.app" "q2" (sampleOptions "openai" "https://api.openai.com/v1" "K" "")
     (by decide)⟩

/-- Claim C2: after a failed chat invocation (the dispatcher's catch branch
runs), the history message sequence for the application identifier equals
the sequence it had before request construction: the push of the user
message followed by the pop restores the previous history contents.  The
first conjunct states this for the build/compensate pair itself, the
second through the full dispatch (relative to the swept store the request
was constructed on). -/
theorem failed_turn_restores_messages :
    (∀ (now : Nat) (hs : ChatHistories) (appId u : String) (opts : Options),
      messagesOf (ChatAction.onRequestError now
          (ChatAction.makeRequestData now hs appId u opts).2 appId) appId
        = messagesOf hs appId)
    ∧ (∀ (now : Nat) (hs : ChatHistories) (ctx : Ctx) (inp e : String)
        (opts : Options) (co : ClientOptions),
      ctx.shift = false → makeClientOptions opts = Except.ok co →
      messagesOf (doActionChat now hs ctx inp opts (NetResult.failure e)).1
          ctx.appIdentifier
        = messagesOf (ChatAction.doCleanup now hs) ctx.appIdentifier) := by
  constructor
  · intro now hs appId u opts
    exact failedTurn_messagesOf now hs appId u opts
  · intro now hs ctx inp e opts co hshift hco
    simp only [doActionChat, doActionChatSwept, hshift, Bool.false_eq_true,
      if_false, hco]
    exact failedTurn_messagesOf now (ChatAction.doCleanup now hs)
      ctx.appIdentifier inp opts

/-- Concrete failed dispatch witnessing `failed_turn_restores_messages`. -/
theorem failed_turn_restores_messages_witness :
    messagesOf (doActionChat 0 [] ⟨"com.app", "App", true, true, false, false⟩
        "x" (sampleOptions "openai" "https://api.openai.com/v1" "K" "")
        (NetResult.failure "err")).1 "com.app"
      = messagesOf (ChatAction.doCleanup 0 []) "com.app" :=
  failed_turn_restores_messages.2 0 [] ⟨"com.app", "App", true, true, false, false⟩
    "x" "err" (sampleOptions "openai" "https://api.openai.com/v1" "K" "")
    ⟨"https://api.openai.com/v1", [("Authorization", "Bearer K")], [], 35000⟩
    rfl (by decide)

/-- Claim C3: after a cleanup sweep, every history whose idle duration
exceeds the expiry window is absent from the store, every history whose
idle duration is strictly within the window is still present (as the same
entry, messages unchanged), and the sweep runs at the start of every
dispatch rather than on a timer (the dispatcher factors through the swept
store). -/
theorem cleanup_sweep_spec :
    (∀ (now : Nat) (hs : ChatHistories) (k : String) (c : ChatHistory),
      (k, c) ∈ hs → InactiveChatHistoryResetIntervalMs < now - c.lastActiveAt →
      (k, c) ∉ ChatAction.doCleanup now hs)
    ∧ (∀ (now : Nat) (hs : ChatHistories) (k : String) (c : ChatHistory),
      (k, c) ∈ hs → now - c.lastActiveAt < InactiveChatHistoryResetIntervalMs →
      (k, c) ∈ ChatAction.doCleanup now hs)
    ∧ (∀ (now : Nat) (hs : ChatHistories) (ctx : Ctx) (inp : String)
        (opts : Options) (net : NetResult),
      doActionChat now hs ctx inp opts net
        = doActionChatSwept now (ChatAction.doCleanup now hs) ctx inp opts net) := by
  refine ⟨?_, ?_, ?_⟩
  · intro now hs k c _ hgt hin
    rw [ChatAction.doCleanup, List.mem_filter] at hin
    have h2 := hin.2
    simp only [ChatHistory.isActive, decide_eq_true_eq] at h2
    omega
  · intro now hs k c hmem hlt
    rw [ChatAction.doCleanup, List.mem_filter]
    refine ⟨hmem, ?_⟩
    simp only [ChatHistory.isActive, decide_eq_true_eq]
    exact hlt
  · intro now hs ctx inp opts net
    rfl

/-- Concrete sweep witnessing `cleanup_sweep_spec`: an idle history is
gone, a fresh one survives. -/
theorem cleanup_sweep_spec_witness :
    ("a", (⟨"a", 0, []⟩ : ChatHistory)) ∉
        ChatAction.doCleanup 2000000 [("a", ⟨"a", 0, []⟩)]
    ∧ ("b", (⟨"b", 1000, [⟨Role.user, "x"⟩]⟩ : ChatHistory)) ∈
        ChatAction.doCleanup 2000 [("b", ⟨"b", 1000, [⟨Role.user, "x"⟩]⟩)] :=
  ⟨cleanup_sweep_spec.1 2000000 [("a", ⟨"a", 0, []⟩)] "a" ⟨"a", 0, []⟩
      (by decide) (by decide),
   cleanup_sweep_spec.2.1 2000 [("b", ⟨"b", 1000, [⟨Role.user, "x"⟩]⟩)] "b"
      ⟨"b", 1000, [⟨Role.user, "x"⟩]⟩ (by decide) (by decide)⟩

/-- Claim C8: if client-configuration building throws (an unsupported
dialect tag) during a chat dispatch, the user message appended by request
construction remains in the application's history — the throw happens
after `makeRequestData` and outside the try/catch, so no pop occurs — and
no host effect is emitted by `doAction` before the exception propagates. -/
theorem config_error_leaves_user_message (now : Nat) (hs : ChatHistories)
    (ctx : Ctx) (inp : String) (opts : Options) (net : NetResult) (err : String)
    (hshift : ctx.shift = false)
    (herr : makeClientOptions opts = Except.error err) :
    messagesOf (doActionChat now hs ctx inp opts net).1 ctx.appIdentifier
      = messagesOf (ChatAction.doCleanup now hs) ctx.appIdentifier
          ++ [⟨Role.user, inp⟩]
    ∧ (doActionChat now hs ctx inp opts net).2 = [] := by
  simp only [doActionChat, doActionChatSwept, hshift, Bool.false_eq_true,
    if_false, herr]
  exact ⟨messagesOf_makeRequestData now (ChatAction.doCleanup now hs)
    ctx.appIdentifier inp opts, trivial⟩

/-- Concrete unsupported-dialect dispatch witnessing
`config_error_leaves_user_message`. -/
theorem config_error_leaves_user_message_witness :
    messagesOf (doActionChat 0 [] ⟨"com.app", "App", true, true, false, false⟩
        "hello" (sampleOptions "wat" "https://a.b/c" "K" "")
        (NetResult.failure "unreached")).1 "com.app"
      = messagesOf (ChatAction.doCleanup 0 []) "com.app" ++ [⟨Role.user, "hello"⟩]
    ∧ (doActionChat 0 [] ⟨"com.app", "App", true, true, false, false⟩
        "hello" (sampleOptions "wat" "https://a.b/c" "K" "")
        (NetResult.failure "unreached")).2 = [] :=
  config_error_leaves_user_message 0 [] ⟨"com.app", "App", true, true, false, false⟩
    "hello" (sampleOptions "wat" "https://a.b/c" "K" "")
    (NetResult.failure "unreached") "unsupported api type: wat" rfl (by decide)

/-- Claim C9: a failed chat turn leaves the history's message sequence
unchanged but not its last-activity timestamp — push updates the timestamp
and pop does not restore it, so afterwards the timestamp equals the time
of the failed attempt. -/
theorem failed_turn_refreshes_timestamp (now : Nat) (hs : ChatHistories)
    (appId u : String) (opts : Options) (c : ChatHistory)
    (h : lookupHistory hs appId = some c) :
    lookupHistory (ChatAction.onRequestError now
        (ChatAction.makeRequestData now hs appId u opts).2 appId) appId
      = some ⟨c.appIdentifier, now, c.messages⟩ := by
  simp [ChatAction.makeRequestData, ChatAction.onRequestError, getChatHistory,
    h, lookupHistory_setHistory_self, ChatHistory.push, ChatHistory.popped]

/-- Concrete failed turn witnessing `failed_turn_refreshes_timestamp`:
messages survive, the timestamp moves from 3 to 777. -/
theorem failed_turn_refreshes_timestamp_witness :
    lookupHistory (ChatAction.onRequestError 777
        (ChatAction.makeRequestData 777
          [("com.app", ⟨"com.app", 3, [⟨Role.user, "x"⟩, ⟨Role.assistant, "y"⟩]⟩)]
          "com.app" "z" (sampleOptions "openai" "https://api.openai.com/v1" "K" "")).2
        "com.app") "com.app"
      = some ⟨"com.app", 777, [⟨Role.user, "x"⟩, ⟨Role.assistant, "y"⟩]⟩ :=
  failed_turn_refreshes_timestamp 777
    [("com.app", ⟨"com.app", 3, [⟨Role.user, "x"⟩, ⟨Role.assistant, "y"⟩]⟩)]
    "com.app" "z" (sampleOptions "openai" "https://api.openai.com/v1" "K" "")
    ⟨"com.app", 3, [⟨Role.user, "x"⟩, ⟨Role.assistant, "y"⟩]⟩ (by decide)

/-- Claim C7: when the host capability `canPaste` is false and the network
call succeeds, the output router copies the result to the clipboard and
shows it as a preview, and never issues a paste request, for all modifier
states and application names — stated for the shared routing branch of
`doAction` and for a full successful chat dispatch. -/
theorem no_paste_when_cannot_paste :
    (∀ (aid an : String) (cc sh op : Bool) (inp res : String),
      routeOutput ⟨aid, an, false, cc, sh, op⟩ inp res
        = [Effect.copyText res, Effect.showText res true])
    ∧ (∀ (now : Nat) (hs : ChatHistories) (aid an : String) (cc op : Bool)
        (inp : String) (opts : Options) (co : ClientOptions) (m : Message),
      makeClientOptions opts = Except.ok co →
      (doActionChat now hs ⟨aid, an, false, cc, false, op⟩ inp opts
          (NetResult.success m)).2
        = [Effect.copyText (jsTrim m.content), Effect.showText (jsTrim m.content) true]
      ∧ ∀ (t : String) (r : Bool), Effect.pasteText t r ∉
          (doActionChat now hs ⟨aid, an, false, cc, false, op⟩ inp opts
            (NetResult.success m)).2) := by
  constructor
  · intro aid an cc sh op inp res
    simp [routeOutput]
  · intro now hs aid an cc op inp opts co m hco
    have heq : (doActionChat now hs ⟨aid, an, false, cc, false, op⟩ inp opts
        (NetResult.success m)).2
        = [Effect.copyText (jsTrim m.content), Effect.showText (jsTrim m.content) true] := by
      simp [doActionChat, doActionChatSwept, hco, ChatAction.processResponse,
        routeOutput]
    refine ⟨heq, ?_⟩
    intro t r
    rw [heq]
    simp

/-- Concrete successful dispatch with `canPaste = false` witnessing
`no_paste_when_cannot_paste`. -/
theorem no_paste_when_cannot_paste_witness :
    (doActionChat 0 [] ⟨"com.app", "App", false, true, false, true⟩ "q"
        (sampleOptions "openai" "https://api.openai.com/v1" "K" "")
        (NetResult.success ⟨Role.assistant, "  hello  "⟩)).2
      = [Effect.copyText (jsTrim "  hello  "), Effect.showText (jsTrim "  hello  ") true]
    ∧ ∀ (t : String) (r : Bool), Effect.pasteText t r ∉
        (doActionChat 0 [] ⟨"com.app", "App", false, true, false, true⟩ "q"
          (sampleOptions "openai" "https://api.openai.com/v1" "K" "")
          (NetResult.success ⟨Role.assistant, "  hello  "⟩)).2 :=
  no_paste_when_cannot_paste.2 0 [] "com.app" "App" true true "q"
    (sampleOptions "openai" "https://api.openai.com/v1" "K" "")
    ⟨"https://api.openai.com/v1", [("Authorization", "Bearer K")], [], 35000⟩
    ⟨Role.assistant, "  hello  "⟩ (by decide)

/-- Counterexample to claim C4 as stated: a blob that contains the line
`[translate]Translate to French` but resolves to a different prompt,
because an earlier line already matches `translate` and the first matching
line wins. -/
theorem prompt_override_not_position_independent :
    "[translate]Translate to French"
        ∈ jsSplit '\n' "[translate]First\n[translate]Translate to French"
    ∧ OneTimeAction.getPrompt "translate"
        "[translate]First\n[translate]Translate to French" = "First"
    ∧ ("First" : String) ≠ "Translate to French" := by
  refine ⟨by decide, by decide, by decide⟩

/-- The first matching line determines the resolved prompt. -/
theorem promptLoop_first_match (action target : String) (pre post : List String)
    (hpre : ∀ l ∈ pre, lineMatches action l = false)
    (hm : lineMatches action target = true) :
    promptLoop action (pre ++ target :: post)
      = some (jsJoin ']' ((jsSplit ']' (jsTrim target)).drop 1)) := by
  induction pre with
  | nil => simp [promptLoop, hm]
  | cons l ls ih =>
    have hl : lineMatches action l = false := hpre l (by simp)
    simp only [List.cons_append, promptLoop, hl, Bool.false_eq_true, if_false]
    exact ih (fun x hx => hpre x (by simp [hx]))

/-- Claim C4 amended: for every custom-prompts blob in which
`[translate]Translate to French` is the first line matching action
identity `translate` (earlier lines do not match; later lines are
arbitrary), resolving the prompt for `translate` returns exactly
`Translate to French`; matching compares the text before the first `]` of
a line, stripped of its leading character, with the action identity. -/
theorem prompt_override_first_match (blob : String) (pre post : List String)
    (hne : blob ≠ "")
    (hsplit : jsSplit '\n' blob = pre ++ "[translate]Translate to French" :: post)
    (hpre : ∀ l ∈ pre, lineMatches "translate" l = false) :
    OneTimeAction.getPrompt "translate" blob = "Translate to French" := by
  rw [OneTimeAction.getPrompt, if_neg hne, hsplit,
    promptLoop_first_match "translate" "[translate]Translate to French" pre post
      hpre (by decide)]
  decide

/-- Concrete blob witnessing `prompt_override_first_match`. -/
theorem prompt_override_first_match_witness :
    OneTimeAction.getPrompt "translate"
        "[polish]Polish it\n[translate]Translate to French\njunk"
      = "Translate to French" :=
  prompt_override_first_match
    "[polish]Polish it\n[translate]Translate to French\njunk"
    ["[polish]Polish it"] ["junk"] (by decide) (by decide) (by decide)

/-- Claim C5: for the azure dialect, building the client configuration
from base URL
`https://x.openai.azure.com/openai/deployments/d1/chat/completions?api-version=2023-05-15`
yields the base endpoint with the trailing `/chat/completions` suffix
removed, an `api-version` query parameter of `2023-05-15`, and the
`api-key` header (no bearer scheme) carrying the key. -/
theorem azure_client_options_example (k v : String) :
    makeClientOptions (sampleOptions "azure"
        "https://x.openai.azure.com/openai/deployments/d1/chat/completions?api-version=2023-05-15"
        k v)
      = Except.ok ⟨"https://x.openai.azure.com/openai/deployments/d1",
          [("api-key", k)], [("api-version", some "2023-05-15")], 35000⟩ := by
  rfl

/-- Counterexample to claim C6 as stated: for the openai dialect the base
endpoint is not the configured base URL unchanged — a configured URL
ending in `/chat/completions` is trimmed. -/
theorem openai_base_url_not_as_is :
    makeClientOptions (sampleOptions "openai"
        "https://api.openai.com/v1/chat/completions" "K" "")
      = Except.ok ⟨"https://api.openai.com/v1",
          [("Authorization", "Bearer K")], [], 35000⟩
    ∧ ("https://api.openai.com/v1" : String)
        ≠ (sampleOptions "openai" "https://api.openai.com/v1/chat/completions"
            "K" "").apiBase := by
  refine ⟨by decide, by decide⟩

/-- Claim C6 amended: for the openai dialect the client configuration uses
a bearer-token Authorization header, and its base endpoint equals the
configured base URL's origin plus its pathname with any trailing
`/chat/completions` suffix removed (so the query string is dropped); the
URL is only used as-is when it is already of that trimmed form. -/
theorem openai_client_options_trimmed (o : Options)
    (h : o.apiType = "openai") :
    makeClientOptions o
      = Except.ok ⟨(parseURL o.apiBase).origin
            ++ trimChatCompletions (parseURL o.apiBase).pathname,
          [("Authorization", "Bearer " ++ o.apiKey)], [], 35000⟩ := by
  simp [makeClientOptions, h]

/-- Concrete openai configuration witnessing
`openai_client_options_trimmed`. -/
theorem openai_client_options_trimmed_witness :
    makeClientOptions (sampleOptions "openai" "https://api.openai.com/v1" "K" "")
      = Except.ok ⟨(parseURL "https://api.openai.com/v1").origin
            ++ trimChatCompletions (parseURL "https://api.openai.com/v1").pathname,
          [("Authorization", "Bearer " ++ "K")], [], 35000⟩ :=
  openai_client_options_trimmed
    (sampleOptions "openai" "https://api.openai.com/v1" "K" "") rfl

/-- Claim C10: in the latest revision the azure `api-version` query
parameter comes exclusively from the configured base URL's query string —
the `apiVersion` field of `Options` is never read (the configuration is
invariant under changing it), and whenever the base URL's query lacks an
`api-version` parameter the configured parameter is `null`, regardless of
the `apiVersion` value. -/
theorem azure_api_version_from_url_only :
    (∀ (o : Options) (v : String),
      makeClientOptions o = makeClientOptions { o with apiVersion := v })
    ∧ (∀ (o : Options), o.apiType = "azure" →
      searchParamsGet (parseURL o.apiBase).query "api-version" = none →
      makeClientOptions o
        = Except.ok ⟨(parseURL o.apiBase).origin
              ++ trimChatCompletions (parseURL o.apiBase).pathname,
            [("api-key", o.apiKey)], [("api-version", none)], 35000⟩) := by
  constructor
  · intro o v
    cases o
    rfl
  · intro o h hq
    simp [makeClientOptions, h, hq]

/-- Concrete azure configuration without an `api-version` query parameter
but with a populated `apiVersion` field, witnessing
`azure_api_version_from_url_only`. -/
theorem azure_api_version_from_url_only_witness :
    makeClientOptions (sampleOptions "azure"
        "https://x.openai.azure.com/openai/deployments/d1" "K" "2023-05-15")
      = Except.ok ⟨(parseURL "https://x.openai.azure.com/openai/deployments/d1").origin
            ++ trimChatCompletions
              (parseURL "https://x.openai.azure.com/openai/deployments/d1").pathname,
          [("api-key", "K")], [("api-version", none)], 35000⟩ :=
  azure_api_version_from_url_only.2
    (sampleOptions "azure" "https://x.openai.azure.com/openai/deployments/d1"
      "K" "2023-05-15") rfl (by decide)

end ChatGPTx
